import Mathlib

/-!
Verification development for the rod-wrap package: a Go wrapper around a
Chrome-automation driver.  The session (`chrome.go`) keeps an element-value
cache (`map[string]string`), a watch set (`map[string]bool`), a cancellation
context and a stop channel; `profile.go` enumerates and copies Chrome
profiles; the options file wires a copied profile into the launch
configuration.

The embedding is shallow: Go maps become association lists with
lookup-first semantics, the external browser driver (rod) becomes an
explicit `Dom` environment parameter recording, for each CSS selector, the
element found (if any) and its `value` property, and fallible external
steps (navigation, file reads, JSON decoding, directory creation) become
explicit outcome parameters.  Background goroutines are modelled by their
per-tick state transitions.
-/

namespace RodWrap

/-- Lookup in the association-list model of a Go `map[string]string`:
the most recent binding for a key wins. -/
def mapLookup : List (String × String) → String → Option String
  | [], _ => none
  | (k, v) :: rest, key => if k == key then some v else mapLookup rest key

/-- `m[k] = v` on a Go map: bind `k` to `v` (shadowing any older binding). -/
def mapSet (m : List (String × String)) (k v : String) : List (String × String) :=
  (k, v) :: m

/-- `delete(m, k)` on a Go map: drop every binding for `k`. -/
def mapDel : List (String × String) → String → List (String × String)
  | [], _ => []
  | p :: rest, k => if p.1 == k then mapDel rest k else p :: mapDel rest k

/-- Go map indexing `m[k]` returns the zero value `""` for a missing key. -/
def mapGet (m : List (String × String)) (k : String) : String :=
  (mapLookup m k).getD ""

/-- Membership in the list model of the Go `map[string]bool` watch set. -/
def setMem : List String → String → Bool
  | [], _ => false
  | x :: rest, k => x == k || setMem rest k

/-- `s[k] = true` on the watch set (idempotent). -/
def setAdd (s : List String) (k : String) : List String :=
  if setMem s k then s else k :: s

/-- `delete(s, k)` on the watch set. -/
def setDel : List String → String → List String
  | [], _ => []
  | x :: rest, k => if x == k then setDel rest k else x :: setDel rest k

/-- A live DOM element as seen through the driver: `value` is the result of
`el.Property("value")`, `none` modelling a failed property read. -/
structure DomElem where
  value : Option String
deriving DecidableEq, Repr

/-- The browser-driver boundary for element access: `element sel` is the
result of `page.Element(sel)`, `none` modelling "element not found". -/
structure Dom where
  element : String → Option DomElem

/-- State of one `chromeWebView` session (chrome.go).  The `browser`/`page`
handles live behind the `Dom` parameter of each operation; `ctxCancelled`
models the cancellation context and `stopClosed` whether `stopChan` has
been closed. -/
structure chromeWebView where
  elements : List (String × String)
  listeners : List String
  ctxCancelled : Bool
  stopClosed : Bool
  tmpDir : String
deriving DecidableEq, Repr

/-- `NewChromeWebView` (chrome.go lines 29-88): launch details (binary
lookup, stealth page, window size) have no effect on the session state
modelled here; the session starts with empty cache and watch set, a live
context, an open stop channel, and the options' temp dir. -/
def NewChromeWebView (tmpDir : String) : chromeWebView :=
  { elements := [], listeners := [], ctxCancelled := false,
    stopClosed := false, tmpDir := tmpDir }

/-- `GetValue` (chrome.go lines 125-129): a pure read of the cache under
`RLock`; a Go map read yields `""` for an absent key. -/
def GetValue (c : chromeWebView) (elementID : String) : String :=
  mapGet c.elements elementID

/-- `SetValue` (chrome.go lines 131-147): writes the cache under the lock,
then looks the element up and drives `el.Input(value)`.  Element-not-found
and input failure are logged only (`inputOk` records the `el.Input`
outcome); neither touches the session state. -/
def SetValue (c : chromeWebView) (elementID value : String) (dom : Dom)
    (inputOk : Bool) : chromeWebView :=
  let c1 : chromeWebView := { c with elements := mapSet c.elements elementID value }
  match dom.element ("#" ++ elementID) with
  | none => c1
  | some _ => if inputOk then c1 else c1

/-- `setupListener` (chrome.go lines 233-250): fetch the element, read its
`value` property, and on success store it in the cache; any failure leaves
the cache untouched.  The `go c.pollElementValue(elementID)` spawn is
modelled separately by `pollTick` steps. -/
def setupListener (c : chromeWebView) (elementID : String) (dom : Dom) : chromeWebView :=
  match dom.element ("#" ++ elementID) with
  | none => c
  | some el =>
    match el.value with
    | none => c
    | some v => { c with elements := mapSet c.elements elementID v }

/-- `setupListener` as invoked from `Navigate`'s re-arm loop, which still
holds `c.mu.RLock` (chrome.go lines 109-113): on a successful element
fetch and property read, the cache write takes `c.mu.Lock` on the same
`sync.RWMutex` from the same goroutine (chrome.go line 243); in Go,
`Lock` waits for every held read lock — including the caller's own — so
the call never returns (`none`).  A failed fetch or property read takes
no lock and returns with the state unchanged (no cache write, and for a
failed property read only the polling goroutine is spawned). -/
def setupListenerUnderRLock (c : chromeWebView) (elementID : String)
    (dom : Dom) : Option chromeWebView :=
  match dom.element ("#" ++ elementID) with
  | none => some c
  | some el =>
    match el.value with
    | none => some c
    | some _ => none

/-- `Navigate` (chrome.go lines 90-114): clear the whole cache, then request
the page load (`navOk` records whether `page.Navigate` returned an error;
on error the method logs and returns early), wait for load, then take
`c.mu.RLock` and run `setupListener` for every identifier in the watch
set while the read lock is held.  Per `setupListenerUnderRLock`, the loop
self-deadlocks (`none`) at the first watched identifier whose value reads
successfully; up to that point no cache write has happened, so a
deadlocked `Navigate` leaves the shared state at the cleared cache. -/
def Navigate (c : chromeWebView) (navOk : Bool) (dom : Dom) :
    Option chromeWebView :=
  let c1 : chromeWebView := { c with elements := [] }
  if !navOk then some c1
  else c1.listeners.foldl
    (fun acc elementID => acc.bind
      (fun s => setupListenerUnderRLock s elementID dom))
    (some c1)

/-- The cache and watch-set effect `Navigate`'s re-arm loop would have if
its nested lock acquisition did not self-deadlock: clear the cache, then
apply each watcher's initial fetch.  The real execution (see `Navigate`)
performs at most the cache clear before hanging, so this applies a
superset of the cache writes that can actually occur — all of them to
watched identifiers.  It is used only for the `Op` trace model below,
where those extra writes cannot help the untouched-identifier invariant
being proved. -/
def navigateApprox (c : chromeWebView) (navOk : Bool) (dom : Dom) : chromeWebView :=
  let c1 : chromeWebView := { c with elements := [] }
  if !navOk then c1
  else c1.listeners.foldl (fun acc elementID => setupListener acc elementID dom) c1

/-- `AddListener` (chrome.go lines 218-224): add the identifier to the watch
set under the lock, then run `setupListener`. -/
def AddListener (c : chromeWebView) (elementID : String) (dom : Dom) : chromeWebView :=
  let c1 : chromeWebView := { c with listeners := setAdd c.listeners elementID }
  setupListener c1 elementID dom

/-- `RemoveListener` (chrome.go lines 226-231): one critical section deleting
the identifier from the watch set and from the cache. -/
def RemoveListener (c : chromeWebView) (elementID : String) : chromeWebView :=
  { c with listeners := setDel c.listeners elementID,
           elements := mapDel c.elements elementID }

/-- One iteration of `pollElementValue`'s select/tick body (chrome.go lines
252-284): exit (`none`) when the context is done or the identifier left the
watch set; otherwise a failed element fetch or property read skips the tick
(`some c`, state unchanged), and a successful sample overwrites the cache
entry. -/
def pollTick (c : chromeWebView) (elementID : String) (ctxDone : Bool)
    (dom : Dom) : Option chromeWebView :=
  if ctxDone then none
  else if !(setMem c.listeners elementID) then none
  else match dom.element ("#" ++ elementID) with
    | none => some c
    | some el =>
      match el.value with
      | none => some c
      | some v => some { c with elements := mapSet c.elements elementID v }

/-- `Destroy` (chrome.go lines 294-306): `cancel()` the context (idempotent),
then `close(c.stopChan)` — in Go, closing an already-closed channel panics,
modelled by `none`; temp-dir removal afterwards is best-effort and leaves
the session state unchanged. -/
def Destroy (c : chromeWebView) : Option chromeWebView :=
  let c1 : chromeWebView := { c with ctxCancelled := true }
  if c1.stopClosed then none
  else some { c1 with stopClosed := true }

/-- The value a watcher's fetch would store for `elementID`: element lookup
followed by the `value` property read. -/
def fetchValue (dom : Dom) (elementID : String) : Option String :=
  match dom.element ("#" ++ elementID) with
  | none => none
  | some el => el.value

theorem mapGet_mapSet_self (m : List (String × String)) (k v : String) :
    mapGet (mapSet m k v) k = v := by
  simp [mapGet, mapSet, mapLookup]

/-- Claim C1: for every element identifier and value, after `SetValue(id, v)`
a `GetValue(id)` returns `v`, for every outcome of the element lookup and of
driving its input: the cache write is unconditional and precedes the DOM
interaction, whose failures are only logged. -/
theorem C1_setValue_then_getValue (c : chromeWebView) (id v : String)
    (dom : Dom) (inputOk : Bool) :
    GetValue (SetValue c id v dom inputOk) id = v := by
  unfold SetValue
  cases h : dom.element ("#" ++ id) with
  | none => simp [GetValue, mapGet_mapSet_self]
  | some el => cases inputOk <;> simp [GetValue, mapGet_mapSet_self]

theorem mapLookup_mapSet_ne (m : List (String × String)) (k v k' : String)
    (h : k ≠ k') : mapLookup (mapSet m k v) k' = mapLookup m k' := by
  simp [mapSet, mapLookup, h]

theorem setupListener_eq (c : chromeWebView) (id : String) (dom : Dom) :
    setupListener c id dom =
      match fetchValue dom id with
      | none => c
      | some v => { c with elements := mapSet c.elements id v } := by
  unfold setupListener fetchValue
  cases he : dom.element ("#" ++ id) with
  | none => rfl
  | some el => cases hv : el.value <;> simp [hv]

theorem pollTick_eq (c : chromeWebView) (id : String) (ctxDone : Bool) (dom : Dom) :
    pollTick c id ctxDone dom =
      (if ctxDone then none
       else if !(setMem c.listeners id) then none
       else match fetchValue dom id with
         | none => some c
         | some v => some { c with elements := mapSet c.elements id v }) := by
  unfold pollTick fetchValue
  cases ctxDone with
  | true => rfl
  | false =>
    cases hm : setMem c.listeners id with
    | false => rfl
    | true =>
      simp only [Bool.not_true, Bool.false_eq_true, if_false]
      cases he : dom.element ("#" ++ id) with
      | none => rfl
      | some el => cases hv : el.value <;> simp [hv]

theorem setupListener_listeners (c : chromeWebView) (j : String) (dom : Dom) :
    (setupListener c j dom).listeners = c.listeners := by
  rw [setupListener_eq]
  cases fetchValue dom j <;> rfl

theorem mapLookup_setupListener_ne (c : chromeWebView) (j id : String) (dom : Dom)
    (h : j ≠ id) :
    mapLookup (setupListener c j dom).elements id = mapLookup c.elements id := by
  rw [setupListener_eq]
  cases fetchValue dom j with
  | none => rfl
  | some v => simpa using mapLookup_mapSet_ne c.elements j v id h

theorem mapLookup_setupListener_self (c : chromeWebView) (id : String) (dom : Dom) :
    mapLookup (setupListener c id dom).elements id =
      if (fetchValue dom id).isSome then fetchValue dom id
      else mapLookup c.elements id := by
  rw [setupListener_eq]
  cases fetchValue dom id with
  | none => simp
  | some v => simp [mapSet, mapLookup]

theorem foldl_setupListener_listeners (l : List String) (c : chromeWebView)
    (dom : Dom) :
    (l.foldl (fun acc j => setupListener acc j dom) c).listeners = c.listeners := by
  induction l generalizing c with
  | nil => rfl
  | cons j rest ih => simp [List.foldl, ih, setupListener_listeners]

theorem mapLookup_foldl_setupListener (l : List String) (c : chromeWebView)
    (dom : Dom) (id : String) :
    mapLookup (l.foldl (fun acc j => setupListener acc j dom) c).elements id =
      if setMem l id && (fetchValue dom id).isSome then fetchValue dom id
      else mapLookup c.elements id := by
  induction l generalizing c with
  | nil => simp [setMem]
  | cons j rest ih =>
    rw [List.foldl_cons, ih]
    by_cases hj : j = id
    · subst hj
      rw [mapLookup_setupListener_self]
      by_cases hf : (fetchValue dom j).isSome
      · simp [setMem, hf]
      · simp [setMem, hf]
    · rw [mapLookup_setupListener_ne c j id dom hj]
      have : (j == id) = false := by simp [hj]
      simp [setMem, this]

theorem setupListenerUnderRLock_eq (c : chromeWebView) (id : String) (dom : Dom) :
    setupListenerUnderRLock c id dom =
      match fetchValue dom id with
      | none => some c
      | some _ => none := by
  unfold setupListenerUnderRLock fetchValue
  cases he : dom.element ("#" ++ id) with
  | none => rfl
  | some el => cases hv : el.value <;> simp [hv]

theorem foldl_underRLock_none (l : List String) (dom : Dom) :
    l.foldl (fun acc elementID => acc.bind
      (fun s => setupListenerUnderRLock s elementID dom)) none = none := by
  induction l with
  | nil => rfl
  | cons j rest ih => simpa using ih

theorem foldl_underRLock (l : List String) (s : chromeWebView) (dom : Dom) :
    l.foldl (fun acc elementID => acc.bind
      (fun s' => setupListenerUnderRLock s' elementID dom)) (some s) =
      (if l.any (fun elementID => (fetchValue dom elementID).isSome) then none
       else some s) := by
  induction l with
  | nil => rfl
  | cons j rest ih =>
    rw [List.foldl_cons]
    cases hf : fetchValue dom j with
    | none =>
      have h1 : (some s).bind (fun s' => setupListenerUnderRLock s' j dom) = some s := by
        simp [setupListenerUnderRLock_eq, hf]
      rw [h1, ih]
      simp [List.any_cons, hf]
    | some v =>
      have h1 : (some s).bind (fun s' => setupListenerUnderRLock s' j dom) = none := by
        simp [setupListenerUnderRLock_eq, hf]
      rw [h1, foldl_underRLock_none]
      simp [List.any_cons, hf]

/-- `Navigate` returns at all exactly when the load request failed (early
return, cache cleared) or no watched identifier's initial fetch succeeds
(cache cleared, nothing re-populated); any watched identifier whose fetch
succeeds makes it hang instead. -/
theorem Navigate_completes_iff (c : chromeWebView) (dom : Dom) :
    Navigate c false dom = some { c with elements := [] } ∧
    (Navigate c true dom = none ↔
      c.listeners.any (fun elementID => (fetchValue dom elementID).isSome) = true) ∧
    (c.listeners.any (fun elementID => (fetchValue dom elementID).isSome) = false →
      Navigate c true dom = some { c with elements := [] }) := by
  have hfold : Navigate c true dom =
      (if c.listeners.any (fun elementID => (fetchValue dom elementID).isSome)
       then none else some { c with elements := [] }) := by
    unfold Navigate
    simp only [Bool.not_true, Bool.false_eq_true, if_false]
    exact foldl_underRLock c.listeners { c with elements := [] } dom
  refine ⟨by simp [Navigate], ?_, fun h => by rw [hfold, h]; rfl⟩
  rw [hfold]
  by_cases h : c.listeners.any (fun elementID => (fetchValue dom elementID).isSome) = true
  · simp [h]
  · simp [h]

/-- Claim C2, evaluated at the failing input: the load succeeds and the
single watched identifier `"a"` has a live element whose value reads
`"v0"` — exactly the re-population scenario the claim describes — yet
`Navigate` self-deadlocks (`none`, the `c.mu.Lock` of chrome.go line 243
taken while chrome.go line 109 still holds `c.mu.RLock` on the same
goroutine) instead of completing with the fetched value cached; when the
load request fails it does return, with the cache cleared. -/
theorem C2_navigate_deadlock_on_fetch :
    Navigate ⟨[], ["a"], false, false, ""⟩ true
        ⟨fun s => if s == "#a" then some ⟨some "v0"⟩ else none⟩ = none ∧
    Navigate ⟨[("old", "1")], ["a"], false, false, ""⟩ false
        ⟨fun s => if s == "#a" then some ⟨some "v0"⟩ else none⟩ =
      some ⟨[], ["a"], false, false, ""⟩ :=
  ⟨by decide, by decide⟩

/-- Claim C3: one tick of the background sampling loop for a watched
identifier exits exactly when the cancellation signal has fired or the
identifier left the watch set; a failed element fetch or property read
leaves the whole state (in particular the cache entry) unchanged and
continues; a successful sample overwrites the cache entry with the sampled
value. -/
theorem C3_pollTick_behaviour (c : chromeWebView) (id : String) (ctxDone : Bool)
    (dom : Dom) :
    (pollTick c id ctxDone dom = none ↔
      (ctxDone = true ∨ setMem c.listeners id = false)) ∧
    (ctxDone = false → setMem c.listeners id = true → fetchValue dom id = none →
      pollTick c id ctxDone dom = some c) ∧
    (∀ v, ctxDone = false → setMem c.listeners id = true → fetchValue dom id = some v →
      pollTick c id ctxDone dom = some { c with elements := mapSet c.elements id v }) := by
  refine ⟨?_, ?_, ?_⟩
  · rw [pollTick_eq]
    cases ctxDone with
    | true => simp
    | false =>
      cases hm : setMem c.listeners id with
      | false => simp
      | true =>
        simp only [Bool.false_eq_true, if_false, Bool.not_true, Bool.true_eq_false]
        cases fetchValue dom id <;> simp
  · intro hd hm hf
    rw [pollTick_eq, hd, hm, hf]
    rfl
  · intro v hd hm hf
    rw [pollTick_eq, hd, hm, hf]
    rfl

/-- Concrete instantiation of `C3_pollTick_behaviour`: a live watcher for
`"a"` whose element reports value `"v"` stores `("a", "v")` in the cache. -/
theorem C3_pollTick_behaviour_witness :
    pollTick ⟨[], ["a"], false, false, ""⟩ "a" false
        ⟨fun s => if s == "#a" then some ⟨some "v"⟩ else none⟩ =
      some ⟨[("a", "v")], ["a"], false, false, ""⟩ :=
  (C3_pollTick_behaviour ⟨[], ["a"], false, false, ""⟩ "a" false
      ⟨fun s => if s == "#a" then some ⟨some "v"⟩ else none⟩).2.2
    "v" rfl (by decide) (by decide)

theorem SetValue_eq (c : chromeWebView) (id v : String) (dom : Dom)
    (inputOk : Bool) :
    SetValue c id v dom inputOk = { c with elements := mapSet c.elements id v } := by
  unfold SetValue
  cases he : dom.element ("#" ++ id) <;> simp

theorem mapLookup_mapDel_self (m : List (String × String)) (k : String) :
    mapLookup (mapDel m k) k = none := by
  induction m with
  | nil => rfl
  | cons p rest ih =>
    by_cases h : p.1 = k
    · simpa [mapDel, h] using ih
    · have hb : (p.1 == k) = false := by simp [h]
      simpa [mapDel, hb, mapLookup] using ih

theorem mapLookup_mapDel_ne (m : List (String × String)) (k k' : String)
    (h : k' ≠ k) : mapLookup (mapDel m k) k' = mapLookup m k' := by
  induction m with
  | nil => rfl
  | cons p rest ih =>
    by_cases hp : p.1 = k
    · have hb2 : (k == k') = false := beq_eq_false_iff_ne.mpr fun e => h e.symm
      have hb3 : (p.1 == k') = false := by rw [hp]; exact hb2
      simpa [mapDel, hp, mapLookup, hb2, hb3] using ih
    · have hb : (p.1 == k) = false := by simp [hp]
      by_cases hq : p.1 = k'
      · have hb4 : (k' == k) = false := beq_eq_false_iff_ne.mpr h
        simp [mapDel, hb, hb4, mapLookup, hq]
      · have hb2 : (p.1 == k') = false := by simp [hq]
        simpa [mapDel, hb, mapLookup, hb2] using ih

theorem setMem_setDel_self (s : List String) (k : String) :
    setMem (setDel s k) k = false := by
  induction s with
  | nil => rfl
  | cons x rest ih =>
    by_cases h : x = k
    · simpa [setDel, h] using ih
    · have hb : (x == k) = false := by simp [h]
      simpa [setDel, hb, setMem] using ih

theorem setMem_setDel_ne (s : List String) (k k' : String) (h : k' ≠ k) :
    setMem (setDel s k) k' = setMem s k' := by
  induction s with
  | nil => rfl
  | cons x rest ih =>
    by_cases hp : x = k
    · have hb2 : (k == k') = false := beq_eq_false_iff_ne.mpr fun e => h e.symm
      have hb3 : (x == k') = false := by rw [hp]; exact hb2
      simpa [setDel, hp, setMem, hb2, hb3] using ih
    · have hb : (x == k) = false := by simp [hp]
      by_cases hq : x = k'
      · have hb4 : (k' == k) = false := beq_eq_false_iff_ne.mpr h
        simp [setDel, hb, hb4, setMem, hq]
      · have hb2 : (x == k') = false := by simp [hq]
        simpa [setDel, hb, setMem, hb2] using ih

theorem setMem_setAdd_ne (s : List String) (k k' : String) (h : k ≠ k') :
    setMem (setAdd s k) k' = setMem s k' := by
  unfold setAdd
  by_cases hm : setMem s k
  · simp [hm]
  · simp [hm, setMem, h]

/-- One step of the public mutating interface, together with one watcher
tick, for reasoning about whole operation traces.  The `Dom` and outcome
parameters of each constructor record the driver's behaviour during that
call. -/
inductive Op where
  | navigate (navOk : Bool) (dom : Dom)
  | setValue (elementID value : String) (dom : Dom) (inputOk : Bool)
  | addListener (elementID : String) (dom : Dom)
  | removeListener (elementID : String)
  | tick (elementID : String) (ctxDone : Bool) (dom : Dom)

/-- Apply one operation to the session state; a watcher tick that exits
leaves the shared state unchanged, and `navigate` applies
`navigateApprox`, the deadlock-free over-approximation of `Navigate`'s
cache effect (sound here: it only adds writes to watched identifiers). -/
def applyOp (c : chromeWebView) : Op → chromeWebView
  | .navigate navOk dom => navigateApprox c navOk dom
  | .setValue elementID value dom inputOk => SetValue c elementID value dom inputOk
  | .addListener elementID dom => AddListener c elementID dom
  | .removeListener elementID => RemoveListener c elementID
  | .tick elementID ctxDone dom => (pollTick c elementID ctxDone dom).getD c

def applyOps (c : chromeWebView) (ops : List Op) : chromeWebView :=
  ops.foldl applyOp c

/-- Whether an operation passes `id` to `SetValue` or `AddListener`. -/
def opTargets (id : String) : Op → Bool
  | .setValue i _ _ _ => i == id
  | .addListener i _ => i == id
  | _ => false

theorem applyOp_untouched (id : String) (op : Op) (c : chromeWebView)
    (hop : opTargets id op = false)
    (hl : setMem c.listeners id = false)
    (he : mapLookup c.elements id = none) :
    setMem (applyOp c op).listeners id = false ∧
      mapLookup (applyOp c op).elements id = none := by
  cases op with
  | navigate navOk dom =>
    cases navOk with
    | false => exact ⟨hl, rfl⟩
    | true =>
      constructor
      · simpa [applyOp, navigateApprox, foldl_setupListener_listeners] using hl
      · have := mapLookup_foldl_setupListener
          (({ c with elements := [] } : chromeWebView).listeners)
          ({ c with elements := [] } : chromeWebView) dom id
        simp only [applyOp, navigateApprox, Bool.not_true, Bool.false_eq_true, if_false] at *
        rw [this]
        simp [show setMem c.listeners id = false from hl, mapLookup]
  | setValue i v dom inputOk =>
    have hne : i ≠ id := by simpa [opTargets] using hop
    rw [show applyOp c (.setValue i v dom inputOk) = SetValue c i v dom inputOk from rfl,
      SetValue_eq]
    refine ⟨hl, ?_⟩
    show mapLookup (mapSet c.elements i v) id = none
    rw [mapLookup_mapSet_ne c.elements i v id hne]
    exact he
  | addListener i dom =>
    have hne : i ≠ id := by simpa [opTargets] using hop
    constructor
    · rw [show applyOp c (.addListener i dom)
            = setupListener { c with listeners := setAdd c.listeners i } i dom from rfl,
        setupListener_listeners]
      simpa [setMem_setAdd_ne _ _ _ hne] using hl
    · rw [show applyOp c (.addListener i dom)
            = setupListener { c with listeners := setAdd c.listeners i } i dom from rfl,
        mapLookup_setupListener_ne _ _ _ _ hne]
      exact he
  | removeListener i =>
    by_cases hi : i = id
    · subst hi
      exact ⟨setMem_setDel_self _ _, mapLookup_mapDel_self _ _⟩
    · have hne : id ≠ i := fun e => hi e.symm
      exact ⟨by simpa [applyOp, RemoveListener, setMem_setDel_ne _ _ _ hne] using hl,
        by simpa [applyOp, RemoveListener, mapLookup_mapDel_ne _ _ _ hne] using he⟩
  | tick i ctxDone dom =>
    by_cases hi : i = id
    · subst hi
      have : pollTick c i ctxDone dom = none ∨ pollTick c i ctxDone dom = some c := by
        rw [pollTick_eq]
        cases ctxDone with
        | true => exact Or.inl rfl
        | false => simp [hl]
      rcases this with h | h <;> simp [applyOp, h, hl, he]
    · have hne : i ≠ id := hi
      have : pollTick c i ctxDone dom = none ∨ pollTick c i ctxDone dom = some c ∨
          ∃ v, pollTick c i ctxDone dom
            = some { c with elements := mapSet c.elements i v } := by
        rw [pollTick_eq]
        cases ctxDone with
        | true => exact Or.inl rfl
        | false =>
          by_cases hm : setMem c.listeners i
          · simp only [hm, Bool.not_true, Bool.false_eq_true, if_false]
            cases hf : fetchValue dom i with
            | none => exact Or.inr (Or.inl rfl)
            | some v => exact Or.inr (Or.inr ⟨v, rfl⟩)
          · simp [hm]
      rcases this with h | h | ⟨v, h⟩
      · simpa [applyOp, h] using ⟨hl, he⟩
      · simpa [applyOp, h] using ⟨hl, he⟩
      · refine ⟨by simpa [applyOp, h] using hl, ?_⟩
        simp only [applyOp, h, Option.getD_some]
        show mapLookup (mapSet c.elements i v) id = none
        rw [mapLookup_mapSet_ne c.elements i v id hne]
        exact he

theorem applyOps_untouched (id : String) (ops : List Op) (c : chromeWebView)
    (hops : ∀ op ∈ ops, opTargets id op = false)
    (hl : setMem c.listeners id = false)
    (he : mapLookup c.elements id = none) :
    setMem (applyOps c ops).listeners id = false ∧
      mapLookup (applyOps c ops).elements id = none := by
  induction ops generalizing c with
  | nil => exact ⟨hl, he⟩
  | cons op rest ih =>
    have h1 := applyOp_untouched id op c (hops op (by simp)) hl he
    exact ih (applyOp c op) (fun o ho => hops o (by simp [ho])) h1.1 h1.2

/-- Claim C4: `GetValue` returns `""` for every identifier with no cache
entry; in particular after any operation trace from a fresh session in
which the identifier is never passed to `SetValue` or `AddListener`, and
immediately after `RemoveListener(id)`, which drops the identifier from
both the watch set and the cache in one critical section. -/
theorem C4_getValue_default_empty (t id : String) (ops : List Op)
    (c : chromeWebView) :
    (mapLookup c.elements id = none → GetValue c id = "") ∧
    ((∀ op ∈ ops, opTargets id op = false) →
      GetValue (applyOps (NewChromeWebView t) ops) id = "") ∧
    GetValue (RemoveListener c id) id = "" ∧
    setMem (RemoveListener c id).listeners id = false := by
  refine ⟨fun h => by simp [GetValue, mapGet, h], fun hops => ?_, ?_, ?_⟩
  · have h := applyOps_untouched id ops (NewChromeWebView t) hops rfl rfl
    simp [GetValue, mapGet, h.2]
  · simp [GetValue, RemoveListener, mapGet, mapLookup_mapDel_self]
  · exact setMem_setDel_self _ _

/-- Concrete instantiation of `C4_getValue_default_empty`: a fresh session
read, and a trace touching only other identifiers, both yield `""` for
`"a"`. -/
theorem C4_getValue_default_empty_witness :
    GetValue (NewChromeWebView "") "a" = "" ∧
    GetValue (applyOps (NewChromeWebView "")
      [Op.removeListener "b", Op.navigate true ⟨fun _ => none⟩]) "a" = "" :=
  ⟨(C4_getValue_default_empty "" "a" [] (NewChromeWebView "")).1 rfl,
   (C4_getValue_default_empty "" "a"
      [Op.removeListener "b", Op.navigate true ⟨fun _ => none⟩]
      (NewChromeWebView "")).2.1 (by intro op hop; fin_cases hop <;> rfl)⟩

/-- Claim C10: `Destroy` is not idempotent — the first call on a fresh
session succeeds, but any second call finds the stop channel already
closed, and `close` of a closed channel panics in Go (the `none` result). -/
theorem C10_destroy_not_idempotent (t : String) (c c' : chromeWebView) :
    (Destroy (NewChromeWebView t)).isSome = true ∧
    (Destroy c = some c' → Destroy c' = none) := by
  constructor
  · rfl
  · intro h
    unfold Destroy at h ⊢
    by_cases hs : c.stopClosed
    · simp [hs] at h
    · simp only [hs, Bool.false_eq_true, if_false, Option.some.injEq] at h
      subst h
      rfl

/-- Concrete instantiation of `C10_destroy_not_idempotent`: destroying the
already-destroyed fresh session panics. -/
theorem C10_destroy_not_idempotent_witness :
    Destroy ⟨[], [], true, true, ""⟩ = none :=
  (C10_destroy_not_idempotent "" (NewChromeWebView "")
    ⟨[], [], true, true, ""⟩).2 rfl

/-- A cookie as the driver returns it (the `proto.NetworkCookie` fields
`GetCookie` consults). -/
structure NetworkCookie where
  name : String
  value : String
  domain : String
deriving DecidableEq, Repr

/-- The matching loop of `GetCookie` (chrome.go lines 202-209): return the
value of the first cookie whose name equals the key and whose domain
matches exactly, dot-prefixed, or with either side empty. -/
def findCookie (key domain : String) : List NetworkCookie → String
  | [] => ""
  | cookie :: rest =>
    if cookie.name == key && (cookie.domain == domain
        || cookie.domain == "." ++ domain
        || domain == ""
        || cookie.domain == "") then cookie.value
    else findCookie key domain rest

/-- `GetCookie` (chrome.go lines 190-212): query the page's cookie store
(`queryResult` is the `page.Cookies` outcome, scoped to
`https://<domain>` when the domain is nonempty); a failed query is logged
and yields `""`, otherwise the cookie list is scanned. -/
def GetCookie (key domain : String)
    (queryResult : Option (List NetworkCookie)) : String :=
  match queryResult with
  | none => ""
  | some cookies => findCookie key domain cookies

/-- Tolerant domain matching, written from the spec's words: the cookie
domain equals the requested domain, equals `"."` prepended to it, the
requested domain is empty, or the cookie's domain is empty. -/
def specDomainMatch (cookieDomain reqDomain : String) : Bool :=
  cookieDomain == reqDomain || cookieDomain == "." ++ reqDomain
    || reqDomain == "" || cookieDomain == ""

/-- Spec-side `GetCookie`, written from the spec's words: the value of the
first cookie whose name equals the key and whose domain matches tolerantly;
`""` when no cookie matches or the underlying query failed. -/
def getCookieSpec (key reqDomain : String)
    (queryResult : Option (List NetworkCookie)) : String :=
  match queryResult with
  | none => ""
  | some cookies =>
    match cookies.find?
        (fun c => c.name == key && specDomainMatch c.domain reqDomain) with
    | none => ""
    | some c => c.value

theorem findCookie_cons (key domain : String) (cookie : NetworkCookie)
    (rest : List NetworkCookie) :
    findCookie key domain (cookie :: rest) =
      (if cookie.name == key && specDomainMatch cookie.domain domain
       then cookie.value else findCookie key domain rest) := rfl

theorem findCookie_eq_find? (key domain : String) (cookies : List NetworkCookie) :
    findCookie key domain cookies =
      match cookies.find?
          (fun c => c.name == key && specDomainMatch c.domain domain) with
      | none => ""
      | some c => c.value := by
  induction cookies with
  | nil => rfl
  | cons cookie rest ih =>
    rw [findCookie_cons, List.find?_cons]
    by_cases h : (cookie.name == key && specDomainMatch cookie.domain domain) = true
    · simp [h]
    · have h2 : (cookie.name == key && specDomainMatch cookie.domain domain) = false :=
        Bool.eq_false_iff.mpr h
      simp [h2, ih]

/-- Claim C5: `GetCookie` returns the value of the first cookie whose name
equals the key and whose domain matches tolerantly (exact, dot-prefixed, or
either side empty), and `""` when no cookie matches or the cookie query
fails. -/
theorem C5_getCookie_first_tolerant_match (key domain : String)
    (queryResult : Option (List NetworkCookie)) :
    GetCookie key domain queryResult = getCookieSpec key domain queryResult := by
  cases queryResult with
  | none => rfl
  | some cookies => simpa [GetCookie, getCookieSpec] using findCookie_eq_find? key domain cookies

/-- Model of Go `strings.HasPrefix` on the character sequence. -/
def hasPrefixStr (name skip : String) : Bool :=
  skip.data.isPrefixOf name.data

/-- `skipFiles` (profile.go lines 69-77): the fixed denylist of name
patterns skipped by the profile copy. -/
def skipFiles : List String :=
  ["SingletonLock", "SingletonSocket", "SingletonCookie", "lockfile",
   "LOCK", "LOG", "LOG.old"]

/-- `shouldSkipFile` (profile.go lines 80-87): the name equals, or starts
with, one of the denylist patterns. -/
def shouldSkipFile (name : String) : Bool :=
  skipFiles.any (fun skip => name == skip || hasPrefixStr name skip)

/-- A source directory entry as `copyDir` sees it: a file carries the
outcome of `copyFile` on it, a directory carries the outcomes of the
top-level `os.Stat`, `os.MkdirAll` and `os.ReadDir` calls on it plus its
named entries. -/
inductive FsNode where
  | file (copyOk : Bool)
  | dir (statOk mkdirOk readOk : Bool) (entries : List (String × FsNode))

/-- What an invocation of the copy materialises in the destination. -/
inductive DstNode where
  | file
  | dir (entries : List (String × DstNode))

mutual

/-- `copyDir` (profile.go lines 96-136): fail (`none`) exactly when the
top-level `os.Stat`, `os.MkdirAll` or `os.ReadDir` fails; otherwise walk
the entries.  Calling it on a plain file has no counterpart in the source
(it is only ever called on directories) and is mapped to a failure. -/
def copyDir : FsNode → Option DstNode
  | .file _ => none
  | .dir statOk mkdirOk readOk entries =>
    if !statOk then none
    else if !mkdirOk then none
    else if !readOk then none
    else some (.dir (copyEntries entries))

/-- The entry loop of `copyDir` (profile.go lines 111-133): skip denylisted
names; recurse into directories and copy files, where a per-entry failure
is logged and the entry skipped. -/
def copyEntries : List (String × FsNode) → List (String × DstNode)
  | [] => []
  | (entryName, node) :: rest =>
    if shouldSkipFile entryName then copyEntries rest
    else
      match node with
      | .file copyOk =>
        if copyOk then (entryName, .file) :: copyEntries rest
        else copyEntries rest
      | .dir s m r es =>
        match copyDir (.dir s m r es) with
        | none => copyEntries rest
        | some d => (entryName, d) :: copyEntries rest

end

/-- `CopyProfile` (profile.go lines 91-93): copy the profile's directory
tree into the destination via `copyDir`. -/
def CopyProfile (profileTree : FsNode) : Option DstNode :=
  copyDir profileTree

/-- Claim C6: the copy skips exactly the directory entries whose name
matches, or is prefixed by, an element of the fixed denylist and copies
the others; on a source directory holding exactly `LOCK`, `SingletonLock`
and `data.db`, only `data.db` reaches the destination. -/
theorem C6_copy_skips_denylisted_names :
    (∀ (entryName : String) (rest : List (String × FsNode)),
      copyEntries ((entryName, .file true) :: rest) =
        (if shouldSkipFile entryName then copyEntries rest
         else (entryName, .file) :: copyEntries rest)) ∧
    shouldSkipFile "LOCK" = true ∧
    shouldSkipFile "SingletonLock" = true ∧
    shouldSkipFile "data.db" = false ∧
    CopyProfile (.dir true true true
        [("LOCK", .file true), ("SingletonLock", .file true),
         ("data.db", .file true)]) =
      some (.dir [("data.db", .file)]) := by
  refine ⟨fun entryName rest => ?_, by decide, by decide, by decide, rfl⟩
  by_cases h : shouldSkipFile entryName <;> simp [copyEntries, h]

/-- Claim C7: `copyDir` (hence `CopyProfile`) returns an error exactly when
the top-level stat, destination creation or top-level listing fails, while
a failing file copy or a failing subdirectory inside the walk is skipped
and the overall call still succeeds. -/
theorem C7_copy_error_only_top_level :
    (∀ (s m r : Bool) (es : List (String × FsNode)),
      (CopyProfile (.dir s m r es)).isSome = (s && m && r)) ∧
    (∀ (entryName : String) (rest : List (String × FsNode)),
      copyEntries ((entryName, .file false) :: rest) = copyEntries rest) ∧
    (∀ (entryName : String) (m r : Bool) (es rest : List (String × FsNode)),
      copyEntries ((entryName, .dir false m r es) :: rest) = copyEntries rest) := by
  refine ⟨fun s m r es => ?_, fun entryName rest => ?_, fun entryName m r es rest => ?_⟩
  · cases s <;> cases m <;> cases r <;> simp [CopyProfile, copyDir]
  · by_cases h : shouldSkipFile entryName <;> simp [copyEntries, h]
  · by_cases h : shouldSkipFile entryName <;> simp [copyEntries, h, copyDir]

/-- `ChromeProfile` (profile.go lines 14-18). -/
structure ChromeProfile where
  name : String
  directory : String
  path : String
deriving DecidableEq, Repr

/-- Model of `filepath.Join` as used here: insert the separator (no further
cleaning is relevant to these claims). -/
def pathJoin (a b : String) : String := a ++ "/" ++ b

/-- `ListChromeProfiles` (profile.go lines 35-66): read the `Local State`
registry under the user-data dir (`readFile` is the `os.ReadFile` outcome),
decode it (`unmarshal data` is the `json.Unmarshal` outcome, the decoded
`profile.info_cache` object as (directory key, profile name) pairs), and
build one `ChromeProfile` per entry. -/
def ListChromeProfiles (userDataDir : String) (readFile : Option String)
    (unmarshal : String → Option (List (String × String))) :
    Option (List ChromeProfile) :=
  match readFile with
  | none => none
  | some data =>
    match unmarshal data with
    | none => none
    | some infoCache =>
      some (infoCache.map (fun p =>
        { name := p.2, directory := p.1, path := pathJoin userDataDir p.1 }))

/-- Claim C8: `ListChromeProfiles` fails exactly when the registry file
cannot be read or its JSON does not decode; on success it yields one
profile per registry entry, with the name from the entry, the directory
from the key and the path joining the user-data dir with the key; an empty
registry yields an empty list with no error. -/
theorem C8_listProfiles_registry (userDataDir : String) (readFile : Option String)
    (unmarshal : String → Option (List (String × String))) (data : String) :
    (ListChromeProfiles userDataDir readFile unmarshal = none ↔
      (readFile = none ∨ ∃ d, readFile = some d ∧ unmarshal d = none)) ∧
    (∀ es, unmarshal data = some es →
      ListChromeProfiles userDataDir (some data) unmarshal =
        some (es.map (fun p =>
          { name := p.2, directory := p.1, path := pathJoin userDataDir p.1 }))) ∧
    (unmarshal data = some [] →
      ListChromeProfiles userDataDir (some data) unmarshal = some []) := by
  refine ⟨?_, fun es h => by simp [ListChromeProfiles, h], fun h => by simp [ListChromeProfiles, h]⟩
  cases readFile with
  | none => simp [ListChromeProfiles]
  | some d =>
    cases h : unmarshal d with
    | none => simp [ListChromeProfiles, h]
    | some es => simp [ListChromeProfiles, h]

/-- Concrete instantiation of `C8_listProfiles_registry`: a one-entry
registry yields one profile with the path joined under the user-data dir. -/
theorem C8_listProfiles_registry_witness :
    ListChromeProfiles "/u" (some "registrydata")
        (fun _ => some [("Profile 1", "Alice")]) =
      some [{ name := "Alice", directory := "Profile 1", path := "/u/Profile 1" }] := by
  rw [(C8_listProfiles_registry "/u" (some "registrydata")
      (fun _ => some [("Profile 1", "Alice")]) "registrydata").2.1
    [("Profile 1", "Alice")] rfl]
  decide

/-- `chromeOptions` (options file lines 12-17). -/
structure chromeOptions where
  profileDir : String
  userDataDir : String
  tmpDir : String
  headless : Bool
deriving DecidableEq, Repr

/-- Outcomes of the external steps `WithCopiedProfile` performs:
`mkdirTemp` is the path of the created temporary directory (`none` =
`os.MkdirTemp` failed), and the Booleans record the outcomes of
`CopyProfile`, of the `Local State` `copyFile`, and of the verification
`os.ReadDir` — all three only logged. -/
structure CopiedProfileEnv where
  mkdirTemp : Option String
  copyProfileOk : Bool
  copyLocalStateOk : Bool
  readBackOk : Bool

/-- The copy destinations `WithCopiedProfile` drives (profile tree and
registry file); `none` when the step was never attempted. -/
structure CopiedProfileActions where
  profileCopyDst : Option String
  localStateDst : Option String
deriving DecidableEq, Repr

/-- `WithCopiedProfile` (options file lines 53-92): create a temp dir (on
failure log and return with the options untouched); copy the profile into
`<tmp>/Default` and the `Local State` registry file into `<tmp>`, logging
any failure; check the copy by listing the destination, logging only; then
set the user-data root to the temp dir and the profile dir to `"Default"`.
The option function has no error path back to the caller. -/
def WithCopiedProfile (env : CopiedProfileEnv) (o : chromeOptions) :
    chromeOptions × CopiedProfileActions :=
  match env.mkdirTemp with
  | none => (o, { profileCopyDst := none, localStateDst := none })
  | some tmpDir =>
    let o1 : chromeOptions := { o with tmpDir := tmpDir }
    let profileDestDir := pathJoin tmpDir "Default"
    let localStateDst := pathJoin tmpDir "Local State"
    ({ o1 with userDataDir := tmpDir, profileDir := "Default" },
     { profileCopyDst := some profileDestDir, localStateDst := some localStateDst })

/-- Claim C9: the copy-existing-profile option never surfaces an error: its
result is independent of the copy outcomes (they are logged only), a failed
temp-dir creation leaves the options untouched, and a created temp dir `t`
yields user-data root `t`, profile dir `"Default"`, profile copy under
`t/Default` and the registry file under `t`. -/
theorem C9_withCopiedProfile_best_effort (env env' : CopiedProfileEnv)
    (o : chromeOptions) (t : String) :
    (env.mkdirTemp = env'.mkdirTemp →
      WithCopiedProfile env o = WithCopiedProfile env' o) ∧
    (env.mkdirTemp = none →
      WithCopiedProfile env o = (o, { profileCopyDst := none, localStateDst := none })) ∧
    (env.mkdirTemp = some t →
      WithCopiedProfile env o =
        ({ o with tmpDir := t, userDataDir := t, profileDir := "Default" },
         { profileCopyDst := some (pathJoin t "Default"),
           localStateDst := some (pathJoin t "Local State") })) := by
  refine ⟨fun h => ?_, fun h => ?_, fun h => ?_⟩
  · unfold WithCopiedProfile
    rw [h]
  · unfold WithCopiedProfile
    rw [h]
  · unfold WithCopiedProfile
    rw [h]

/-- Concrete instantiation of `C9_withCopiedProfile_best_effort`: with every
copy step failing, the configuration is still pointed at the temp dir and
the canonical `Default` profile. -/
theorem C9_withCopiedProfile_best_effort_witness :
    WithCopiedProfile ⟨some "/tmp/x", false, false, false⟩ ⟨"", "", "", false⟩ =
      (⟨"Default", "/tmp/x", "/tmp/x", false⟩,
       ⟨some "/tmp/x/Default", some "/tmp/x/Local State"⟩) := by
  rw [(C9_withCopiedProfile_best_effort ⟨some "/tmp/x", false, false, false⟩
      ⟨some "/tmp/x", false, false, false⟩ ⟨"", "", "", false⟩ "/tmp/x").2.2 rfl]
  decide

end RodWrap
